import Mathlib

/-!
Verification of the message-moderation core of the `bot` repository:
`bot/cogs/token_remover.py` and `bot/rules/attachments.py`, shallowly
embedded in Lean.  Strings are modelled as `List Char` (Python strings are
sequences of code points), byte strings as `List Nat` with entries below 256,
Python `int` as `Nat`/`Int`, and fallible operations return `Option`.
The side-effecting dispatcher (`take_action`, `on_message`) is modelled as a
pure function from an environment of collaborator behaviour to the list of
effects performed, in order.
-/

/- ## Model of the Python standard-library helpers used by the source

`base64.urlsafe_b64decode` translates `-`/`_` to `+`/`/` and calls
`binascii.a2b_base64` (non-strict mode, CPython 3.x as of the repository's
era): invalid characters are skipped, `=` ends the data only when it closes a
quad, and leftover bits raise `binascii.Error` ("Incorrect padding"),
modelled as `none`. -/

/-- Value of a byte in the standard base64 alphabet (`table_a2b_base64`),
without the pad character. -/
def b64val (b : Nat) : Option Nat :=
  if 65 ≤ b ∧ b ≤ 90 then some (b - 65)
  else if 97 ≤ b ∧ b ≤ 122 then some (b - 97 + 26)
  else if 48 ≤ b ∧ b ≤ 57 then some (b - 48 + 52)
  else if b = 43 then some 62
  else if b = 47 then some 63
  else none

/-- First byte of `s` that `binascii_find_valid` counts as a base64 character:
an ASCII byte whose table entry is not -1; the pad byte 61 (`=`) counts. -/
def b64_find_valid (s : List Nat) : Option Nat :=
  s.find? (fun b => decide (b ≤ 0x7f) && ((b64val b).isSome || b == 61))

/-- Main loop of CPython's non-strict `binascii.a2b_base64`: state is the
position in the current quad, the pending bit accumulator, the number of
pending bits and the output bytes in reverse order. -/
def a2b_base64_go : List Nat → Nat → Nat → Nat → List Nat → Option (List Nat)
  | [], _, _, leftbits, out =>
    if leftbits == 0 then some out.reverse else none
  | b :: rest, quad_pos, leftchar, leftbits, out =>
    if b > 0x7f || b == 13 || b == 10 || b == 32 then
      a2b_base64_go rest quad_pos leftchar leftbits out
    else if b == 61 then
      if decide (quad_pos < 2) || (quad_pos == 2 && b64_find_valid rest != some 61) then
        a2b_base64_go rest quad_pos leftchar leftbits out
      else
        some out.reverse
    else
      match b64val b with
      | none => a2b_base64_go rest quad_pos leftchar leftbits out
      | some v =>
        let quad_pos2 := (quad_pos + 1) % 4
        let leftchar2 := leftchar * 64 + v
        let leftbits2 := leftbits + 6
        if leftbits2 ≥ 8 then
          a2b_base64_go rest quad_pos2 (leftchar2 % 2 ^ (leftbits2 - 8)) (leftbits2 - 8)
            ((leftchar2 / 2 ^ (leftbits2 - 8) % 256) :: out)
        else
          a2b_base64_go rest quad_pos2 leftchar2 leftbits2 out

/-- Translation table of `base64.urlsafe_b64decode`: `-` to `+`, `_` to `/`. -/
def urlsafe_translate (b : Nat) : Nat :=
  if b == 45 then 43 else if b == 95 then 47 else b

/-- Model of `base64.urlsafe_b64decode` on a `str` argument:
`_bytes_from_decode_data` ASCII-encodes (raising `ValueError` on non-ASCII
input, modelled as `none`), then translates the urlsafe alphabet and runs
`binascii.a2b_base64`. -/
def urlsafe_b64decode (s : List Char) : Option (List Nat) :=
  if s.all (fun c => decide (c.toNat ≤ 0x7f)) then
    a2b_base64_go ((s.map Char.toNat).map urlsafe_translate) 0 0 0 []
  else
    none

/-- Model of `int.from_bytes(bytes, byteorder="big")` for an unsigned value of
arbitrary byte length. -/
def int_from_bytes_be (bs : List Nat) : Nat :=
  bs.foldl (fun acc b => acc * 256 + b) 0

/-- Model of `bytes.decode("utf-8")` (strict): rejects continuation-byte
errors, overlong forms, surrogates, values above U+10FFFF and truncated
sequences, modelled as `none` (Python raises `UnicodeDecodeError`, a subclass
of `ValueError`). -/
def utf8_decode : List Nat → Option (List Char)
  | [] => some []
  | b0 :: rest =>
    if b0 < 0x80 then
      match utf8_decode rest with
      | some cs => some (Char.ofNat b0 :: cs)
      | none => none
    else if b0 < 0xc2 then
      none
    else if b0 < 0xe0 then
      match rest with
      | b1 :: rest2 =>
        if 0x80 ≤ b1 ∧ b1 < 0xc0 then
          match utf8_decode rest2 with
          | some cs => some (Char.ofNat ((b0 - 0xc0) * 0x40 + (b1 - 0x80)) :: cs)
          | none => none
        else none
      | [] => none
    else if b0 < 0xf0 then
      match rest with
      | b1 :: b2 :: rest2 =>
        if ((if b0 = 0xe0 then 0xa0 else 0x80) ≤ b1 ∧ b1 < (if b0 = 0xed then 0xa0 else 0xc0))
            ∧ (0x80 ≤ b2 ∧ b2 < 0xc0) then
          match utf8_decode rest2 with
          | some cs =>
            some (Char.ofNat ((b0 - 0xe0) * 0x1000 + (b1 - 0x80) * 0x40 + (b2 - 0x80)) :: cs)
          | none => none
        else none
      | _ => none
    else if b0 < 0xf5 then
      match rest with
      | b1 :: b2 :: b3 :: rest2 =>
        if ((if b0 = 0xf0 then 0x90 else 0x80) ≤ b1 ∧ b1 < (if b0 = 0xf4 then 0x90 else 0xc0))
            ∧ (0x80 ≤ b2 ∧ b2 < 0xc0) ∧ (0x80 ≤ b3 ∧ b3 < 0xc0) then
          match utf8_decode rest2 with
          | some cs =>
            some (Char.ofNat ((b0 - 0xf0) * 0x40000 + (b1 - 0x80) * 0x1000
              + (b2 - 0x80) * 0x40 + (b3 - 0x80)) :: cs)
          | none => none
        else none
      | _ => none
    else
      none

/-- Model of `str.isascii`. -/
def str_isascii (s : List Char) : Bool :=
  s.all (fun c => decide (c.toNat ≤ 0x7f))

/-- Model of `str.isdigit` restricted to ASCII text: true iff the string is
non-empty and every character is an ASCII decimal digit.  (Python's
`str.isdigit` also accepts non-ASCII digit code points, but the source only
consults it after `str.isascii` has succeeded, where the two agree.) -/
def py_isdigit (s : List Char) : Bool :=
  !s.isEmpty && s.all Char.isDigit

/-- Model of `int(string)` on a string of ASCII decimal digits. -/
def int_of_digits (s : List Char) : Nat :=
  s.foldl (fun acc c => acc * 10 + (c.toNat - 48)) 0

/-- Rendering of an `Optional[int]` by Python string formatting:
an integer prints in decimal, `None` prints as the text `None`. -/
def py_str_opt : Option Nat → String
  | some n => toString n
  | none => "None"

/-- Modelled from the spec: `bot.utils.pad_base64` is imported by
`token_remover.py` but `bot/utils` is not among the provided source files.
Spec section 4.1: appends `=` characters until the length is a multiple of 4,
never over-padding. -/
def pad_base64 (data : List Char) : List Char :=
  data ++ List.replicate ((4 - data.length % 4) % 4) '='

/- ## Embedding of `bot/cogs/token_remover.py` -/

/-- Constant `DISCORD_EPOCH` of `token_remover.py`. -/
def DISCORD_EPOCH : Nat := 1420070400

/-- Constant `TOKEN_EPOCH` of `token_remover.py`. -/
def TOKEN_EPOCH : Nat := 1293840000

/-- Class `Token` of `token_remover.py`: named triple of the three
dot-delimited fragments of a candidate token. -/
structure Token where
  user_id : List Char
  timestamp : List Char
  hmac : List Char
  deriving Repr, DecidableEq

/-- Character class of one part of `TOKEN_RE`, the pattern
`([\w\-=]+)\.([\w\-=]+)\.([\w\-=]+)` compiled with `re.ASCII`: `\w` under
`re.ASCII` is `[A-Za-z0-9_]`, so a part character is an ASCII letter, an
ASCII digit, `_`, `-` or `=`. -/
def isTokenChar (c : Char) : Bool :=
  c.isAlpha || c.isDigit || c == '_' || c == '-' || c == '='

/-- Greedy run of part characters: the maximal prefix of part characters and
the remainder.  Models the greedy `[\w\-=]+` item (no backtracking can arise
because `.` is not a part character). -/
def takeRun : List Char → List Char × List Char
  | [] => ([], [])
  | c :: cs =>
    if isTokenChar c then
      let p := takeRun cs
      (c :: p.1, p.2)
    else
      ([], c :: cs)

/-- Attempt of `TOKEN_RE` to match at the start of `s`: three non-empty
greedy part runs separated by literal dots.  Returns the captured `Token`
and the remainder of the text after the match. -/
def matchAt (s : List Char) : Option (Token × List Char) :=
  let t1 := takeRun s
  if t1.1.isEmpty then none
  else
    match t1.2 with
    | '.' :: r1 =>
      let t2 := takeRun r1
      if t2.1.isEmpty then none
      else
        match t2.2 with
        | '.' :: r2 =>
          let t3 := takeRun r2
          if t3.1.isEmpty then none
          else some (⟨t1.1, t2.1, t3.1⟩, t3.2)
        | _ => none
    | _ => none

/-- Fueled scan of `TOKEN_RE.finditer`: try to match at each position from
left to right, on success continue after the match (matches do not overlap),
on failure advance one character.  The fuel only bounds the recursion; fuel
equal to the length of the text is sufficient (`finditer_go_fuel`). -/
def finditer_go : Nat → List Char → List Token
  | 0, _ => []
  | fuel + 1, s =>
    match matchAt s with
    | some (t, rest) => t :: finditer_go fuel rest
    | none =>
      match s with
      | [] => []
      | _ :: cs => finditer_go fuel cs

/-- Model of `TOKEN_RE.finditer(text)`: all structural candidates, in
left-to-right order. -/
def finditer (text : List Char) : List Token :=
  finditer_go text.length text

namespace TokenRemover

/-- Method `TokenRemover.extract_user_id`: pad, base64-url-decode, decode the
bytes as UTF-8, require pure ASCII digits, parse in base 10.  `binascii.Error`,
`UnicodeDecodeError` and any other `ValueError` are caught and become `None`;
the function never raises to its caller. -/
def extract_user_id (b64_content : List Char) : Option Nat :=
  let padded := pad_base64 b64_content
  match urlsafe_b64decode padded with
  | none => none
  | some decoded_bytes =>
    match utf8_decode decoded_bytes with
    | none => none
    | some string =>
      if !(str_isascii string && py_isdigit string) then none
      else some (int_of_digits string)

/-- Method `TokenRemover.is_valid_user_id`: `if not decoded_id: return False`
— both `None` and the integer `0` are falsy in Python, so a decoded id of `0`
is rejected. -/
def is_valid_user_id (b64_content : List Char) : Bool :=
  match extract_user_id b64_content with
  | none => false
  | some n => n != 0

/-- Method `TokenRemover.is_valid_timestamp`: pad, base64-url-decode,
interpret the bytes as a big-endian unsigned integer and test
`timestamp + TOKEN_EPOCH >= DISCORD_EPOCH`; a decoding failure returns
`False` (logged, not raised). -/
def is_valid_timestamp (b64_content : List Char) : Bool :=
  let padded := pad_base64 b64_content
  match urlsafe_b64decode padded with
  | none => false
  | some decoded_bytes =>
    decide (int_from_bytes_be decoded_bytes + TOKEN_EPOCH ≥ DISCORD_EPOCH)

/-- Acceptance test applied to each structural candidate in
`find_token_in_message`. -/
def token_is_valid (t : Token) : Bool :=
  is_valid_user_id t.user_id && is_valid_timestamp t.timestamp

/-- Fueled loop of `find_token_in_message`: iterate the structural candidates
in order and return the first that passes `token_is_valid` (short-circuit),
else `None`. -/
def find_token_go : Nat → List Char → Option Token
  | 0, _ => none
  | fuel + 1, s =>
    match matchAt s with
    | some (t, rest) =>
      if token_is_valid t then some t else find_token_go fuel rest
    | none =>
      match s with
      | [] => none
      | _ :: cs => find_token_go fuel cs

end TokenRemover

/- ## Model of the collaborator interfaces used by `TokenRemover` -/

/-- Attributes of a `discord.Message` consumed by `token_remover.py`:
identity, author (string form, id, mention, automated-account flag), guild
(`none` for a direct message), channel and avatar references, and the text
content. -/
structure DiscordMessage where
  id : Nat
  authorStr : String
  authorId : Nat
  authorMention : String
  authorBot : Bool
  guild : Option Nat
  channelId : Nat
  channelMention : String
  avatarUrl : String
  content : List Char
  deriving Repr, DecidableEq

/-- Behaviour of the external collaborators during one dispatch: whether
`Message.delete` raises `NotFound`, the guild membership lookup
(`guild.get_member`, returning `str(user)` when a member is found; looked up
with the decoded id, which may be `None`), and the configuration constants
`Channels.mod_alerts`, `Icons.token_removed` and `Colours.soft_red` that come
from the out-of-scope `bot.constants` module. -/
structure Env where
  deleteNotFound : Bool
  getMember : Option Nat → Option String
  mod_alerts : Nat
  icon_token_removed : String
  colour_soft_red : Nat

/-- Observable side effect on a collaborator, in the order performed. -/
inductive Effect where
  | ignoreDeletion (event : String) (msgId : Nat)
  | deleteMessage (msgId : Nat)
  | logDebug (text : String)
  | sendChannelMessage (channelId : Nat) (text : String)
  | memberLookup (userId : Option Nat)
  | sendModAlert (icon : String) (colour : Nat) (title : String) (text : String)
      (thumbnail : String) (channelId : Nat) (pingEveryone : Bool)
  | statsIncr (counter : String)
  deriving Repr, DecidableEq

/-- Discriminator: is the effect a channel message send. -/
def Effect.isSendChannelMessage : Effect → Bool
  | .sendChannelMessage _ _ => true
  | _ => false

/-- Discriminator: is the effect a guild membership lookup. -/
def Effect.isMemberLookup : Effect → Bool
  | .memberLookup _ => true
  | _ => false

/-- Discriminator: is the effect a moderation alert emission. -/
def Effect.isModAlert : Effect → Bool
  | .sendModAlert _ _ _ _ _ _ _ => true
  | _ => false

/-- Discriminator: is the effect a stats counter increment. -/
def Effect.isStatsIncr : Effect → Bool
  | .statsIncr _ => true
  | _ => false

/-- Constant `Event.message_delete` passed to `mod_log.ignore`. -/
def eventMessageDelete : String := "message_delete"

/-- Constant `DELETION_MESSAGE_TEMPLATE` of `token_remover.py`, formatted
with the author's mention. -/
def deletion_message (mention : String) : String :=
  "Hey " ++ mention ++ "! I noticed you posted a seemingly valid Discord API "
    ++ "token in your message and have removed your message. "
    ++ "This means that your token has been **compromised**. "
    ++ "Please change your token **immediately** at: "
    ++ "<https://discordapp.com/developers/applications/me>\n\n"
    ++ "Feel free to re-post it with the token removed. "
    ++ "If you believe this was a mistake, please let us know!"

namespace TokenRemover

/-- Method `TokenRemover.format_log_message`: `LOG_MESSAGE` formatted with
the author, the author id, the channel mention, the user-id and timestamp
fragments verbatim, and the hmac fragment replaced by `'x' * len(hmac)`;
followed by `USER_TOKEN_MESSAGE` when `user_name` is truthy (non-`None` and
non-empty) and `DECODED_LOG_MESSAGE` otherwise. -/
def format_log_message (msg : DiscordMessage) (token : Token) (user_id : Option Nat)
    (user_name : Option String) : String :=
  let message :=
    "Censored a seemingly valid token sent by " ++ msg.authorStr ++ " (`"
      ++ toString msg.authorId ++ "`) in " ++ msg.channelMention
      ++ ", token was `" ++ String.mk token.user_id ++ "." ++ String.mk token.timestamp
      ++ "." ++ String.mk (List.replicate token.hmac.length 'x') ++ "`"
  let more :=
    match user_name with
    | some name =>
      if name.isEmpty then
        "The token user_id decodes into " ++ py_str_opt user_id ++ "."
      else
        "The token user_id decodes into " ++ py_str_opt user_id ++ ", which matches `"
          ++ name ++ "` and means this is a valid USER token."
    | none => "The token user_id decodes into " ++ py_str_opt user_id ++ "."
  message ++ "\n" ++ more

/-- Method `TokenRemover.find_token_in_message`: scan `msg.content` with
`TOKEN_RE.finditer` and return the first candidate passing both validation
checks, or `None`. -/
def find_token_in_message (msg : DiscordMessage) : Option Token :=
  find_token_go msg.content.length msg.content

/-- Method `TokenRemover.take_action` as the ordered list of collaborator
effects it performs: register deletion suppression, attempt the deletion; on
`NotFound` log at debug level and stop; otherwise post the author notice,
resolve the decoded user id against guild membership, log and emit the
moderation alert (pinging iff a member was resolved), and increment the
`tokens.removed_tokens` counter. -/
def take_action (env : Env) (msg : DiscordMessage) (found_token : Token) : List Effect :=
  let pre := [Effect.ignoreDeletion eventMessageDelete msg.id, Effect.deleteMessage msg.id]
  if env.deleteNotFound then
    pre ++ [Effect.logDebug ("Failed to remove token in message " ++ toString msg.id
      ++ ": message already deleted.")]
  else
    let user_id := extract_user_id found_token.user_id
    let user_name := env.getMember user_id
    let log_message := format_log_message msg found_token user_id user_name
    pre ++
      [Effect.sendChannelMessage msg.channelId (deletion_message msg.authorMention),
       Effect.memberLookup user_id,
       Effect.logDebug log_message,
       Effect.sendModAlert env.icon_token_removed env.colour_soft_red ("Token removed!")
         log_message msg.avatarUrl env.mod_alerts user_name.isSome,
       Effect.statsIncr ("tokens.removed_tokens")]

/-- Listener `TokenRemover.on_message`: ignore direct messages (no guild) and
messages by bot accounts; otherwise scan for a token and dispatch
`take_action` when one is found. -/
def on_message (env : Env) (msg : DiscordMessage) : List Effect :=
  if msg.guild == none || msg.authorBot then []
  else
    match find_token_in_message msg with
    | some found_token => take_action env msg found_token
    | none => []

/-- Listener `TokenRemover.on_message_edit`: reprocesses the after-message
through `on_message`. -/
def on_message_edit (env : Env) (_before after : DiscordMessage) : List Effect :=
  on_message env after

end TokenRemover

/- ## Embedding of `bot/rules/attachments.py` -/

namespace Attachments

/-- Attributes of a `discord.Message` consumed by the attachment rule:
identity, author (compared by equality) and the attachment list (only its
length is consumed). -/
structure RMessage where
  id : Nat
  author : Nat
  attachments : List Nat
  deriving Repr, DecidableEq

/-- Configuration mapping of the rule, holding the integer key `max`. -/
structure RuleConfig where
  max : Int
  deriving Repr, DecidableEq

/-- Function `apply` of `bot/rules/attachments.py`: collect the latest
message together with the recent messages by the same author that carry at
least one attachment, sum the attachment counts, and return the violation
triple when the sum exceeds `config['max']`. -/
def apply (last_message : RMessage) (recent_messages : List RMessage)
    (config : RuleConfig) : Option (String × List Nat × List RMessage) :=
  let relevant_messages := last_message ::
    recent_messages.filter (fun msg =>
      msg.author == last_message.author && decide (0 < msg.attachments.length))
  let total_recent_attachments : Nat :=
    (relevant_messages.map (fun msg => msg.attachments.length)).sum
  if (total_recent_attachments : Int) > config.max then
    some ("sent " ++ toString total_recent_attachments ++ " attachments in "
            ++ toString config.max ++ "s",
          [last_message.author],
          relevant_messages)
  else
    none

end Attachments

/- ## Supporting lemmas -/

/-- The run taken by `takeRun` together with the remainder reassembles the
input. -/
theorem takeRun_append (s : List Char) : (takeRun s).1 ++ (takeRun s).2 = s := by
  induction s with
  | nil => rfl
  | cons c cs ih =>
    simp only [takeRun]
    split
    · simpa using ih
    · rfl

/-- Every character of the run taken by `takeRun` is a part character. -/
theorem takeRun_all (s : List Char) : ∀ c ∈ (takeRun s).1, isTokenChar c = true := by
  induction s with
  | nil => simp [takeRun]
  | cons c cs ih =>
    simp only [takeRun]
    split
    · next h =>
      intro x hx
      rcases List.mem_cons.mp hx with rfl | hx
      · exact h
      · exact ih x hx
    · simp

/-- The remainder left by `takeRun` is no longer than the input. -/
theorem takeRun_snd_length (s : List Char) : (takeRun s).2.length ≤ s.length := by
  have h := congrArg List.length (takeRun_append s)
  simp only [List.length_append] at h
  omega

/-- A successful `matchAt` yields three non-empty part-character runs and
consumes at least one character of the input. -/
theorem matchAt_some {s : List Char} {t : Token} {rest : List Char}
    (h : matchAt s = some (t, rest)) :
    (t.user_id ≠ [] ∧ ∀ c ∈ t.user_id, isTokenChar c = true)
    ∧ (t.timestamp ≠ [] ∧ ∀ c ∈ t.timestamp, isTokenChar c = true)
    ∧ (t.hmac ≠ [] ∧ ∀ c ∈ t.hmac, isTokenChar c = true)
    ∧ rest.length < s.length := by
  simp only [matchAt] at h
  split at h
  · exact absurd h (by simp)
  · next h1 =>
    split at h
    case h_2 => exact absurd h (by simp)
    case h_1 r1 heq1 =>
      split at h
      · exact absurd h (by simp)
      · next h2 =>
        split at h
        case h_2 => exact absurd h (by simp)
        case h_1 r2 heq2 =>
          split at h
          · exact absurd h (by simp)
          · next h3 =>
            have hinj := Option.some.inj h
            have ht : t = ⟨(takeRun s).1, (takeRun r1).1, (takeRun r2).1⟩ :=
              (Prod.mk.inj hinj).1.symm
            have hr : rest = (takeRun r2).2 := (Prod.mk.inj hinj).2.symm
            have hl1 := takeRun_snd_length s
            have hl2 := takeRun_snd_length r1
            have hl3 := takeRun_snd_length r2
            rw [heq1] at hl1
            rw [heq2] at hl2
            subst ht hr
            refine ⟨⟨by simpa using h1, takeRun_all s⟩,
                    ⟨by simpa using h2, takeRun_all r1⟩,
                    ⟨by simpa using h3, takeRun_all r2⟩, ?_⟩
            simp only [List.length_cons] at hl1 hl2
            omega

/-- Any fuel of at least the length of the text gives the same scan result:
the fuel bound in `finditer_go` is immaterial once it covers the text. -/
theorem finditer_go_fuel :
    ∀ (fuel fuel' : Nat) (s : List Char), s.length ≤ fuel → s.length ≤ fuel' →
      finditer_go fuel s = finditer_go fuel' s := by
  intro fuel
  induction fuel with
  | zero =>
    intro fuel' s h _
    have hs : s = [] := List.length_eq_zero.mp (Nat.le_zero.mp h)
    subst hs
    cases fuel' <;> rfl
  | succ n ih =>
    intro fuel' s h h'
    cases s with
    | nil => cases fuel' <;> rfl
    | cons c cs =>
      cases fuel' with
      | zero => simp at h'
      | succ m =>
        simp only [finditer_go]
        cases hm : matchAt (c :: cs) with
        | some tr =>
          obtain ⟨t, rest⟩ := tr
          have hlen := (matchAt_some hm).2.2.2
          simp only [List.length_cons] at hlen h h'
          dsimp only
          rw [ih m rest (by omega) (by omega)]
        | none =>
          dsimp only
          exact ih m cs (by simp only [List.length_cons] at h; omega)
            (by simp only [List.length_cons] at h'; omega)

/-- The search loop of `find_token_in_message` computes exactly the first
valid element of the candidate scan, at every fuel. -/
theorem find_token_go_eq_find (fuel : Nat) (s : List Char) :
    TokenRemover.find_token_go fuel s =
      (finditer_go fuel s).find? TokenRemover.token_is_valid := by
  induction fuel generalizing s with
  | zero => rfl
  | succ n ih =>
    simp only [TokenRemover.find_token_go, finditer_go]
    cases hm : matchAt s with
    | some tr =>
      obtain ⟨t, rest⟩ := tr
      cases hv : TokenRemover.token_is_valid t <;>
        simp [List.find?_cons, hv, ih]
    | none =>
      cases s with
      | nil => rfl
      | cons c cs => exact ih cs

/-- Any token returned by the search loop stems from a structural match and
passes the validation test. -/
theorem find_token_go_some {fuel : Nat} {s : List Char} {t : Token}
    (h : TokenRemover.find_token_go fuel s = some t) :
    ((t.user_id ≠ [] ∧ ∀ c ∈ t.user_id, isTokenChar c = true)
      ∧ (t.timestamp ≠ [] ∧ ∀ c ∈ t.timestamp, isTokenChar c = true)
      ∧ (t.hmac ≠ [] ∧ ∀ c ∈ t.hmac, isTokenChar c = true))
    ∧ TokenRemover.token_is_valid t = true := by
  induction fuel generalizing s with
  | zero => exact absurd h (by simp [TokenRemover.find_token_go])
  | succ n ih =>
    simp only [TokenRemover.find_token_go] at h
    revert h
    cases hm : matchAt s with
    | some tr =>
      obtain ⟨t', rest⟩ := tr
      dsimp only
      intro h
      cases hv : TokenRemover.token_is_valid t' with
      | true =>
        rw [hv] at h
        simp only [if_pos] at h
        obtain rfl := Option.some.inj h
        have hf := matchAt_some hm
        exact ⟨⟨hf.1, hf.2.1, hf.2.2.1⟩, hv⟩
      | false =>
        rw [hv] at h
        simp only [Bool.false_eq_true, if_false] at h
        exact ih h
    | none =>
      dsimp only
      cases s with
      | nil => intro h; exact absurd h (by simp)
      | cons c cs => intro h; exact ih h

/-- A fragment passing `is_valid_user_id` decodes to a present non-zero id. -/
theorem is_valid_user_id_exists {s : List Char}
    (h : TokenRemover.is_valid_user_id s = true) :
    ∃ n, TokenRemover.extract_user_id s = some n ∧ n ≠ 0 := by
  revert h
  unfold TokenRemover.is_valid_user_id
  cases he : TokenRemover.extract_user_id s with
  | none => simp
  | some n =>
    intro h
    exact ⟨n, rfl, by simpa using h⟩

/-- The all-zero byte string denotes zero. -/
theorem int_from_bytes_be_zero {bs : List Nat} (h : ∀ b ∈ bs, b = 0) :
    int_from_bytes_be bs = 0 := by
  induction bs with
  | nil => rfl
  | cons b t ih =>
    have hb : b = 0 := h b (by simp)
    have ht : ∀ x ∈ t, x = 0 := fun x hx => h x (by simp [hx])
    simp only [int_from_bytes_be, List.foldl_cons, hb] at ih ⊢
    simpa using ih ht

/-- A character is a Python ASCII digit iff its code point is between 48 and
57. -/
theorem isDigit_iff_toNat (c : Char) : c.isDigit = true ↔ 48 ≤ c.toNat ∧ c.toNat ≤ 57 := by
  simp only [Char.isDigit, Bool.and_eq_true, decide_eq_true_eq, ge_iff_le, UInt32.le_def]
  rfl

/-- The digits test of `extract_user_id` (`isascii` and `isdigit`) holds
exactly when the text is non-empty and every character is an ASCII decimal
digit. -/
theorem isascii_isdigit_iff (s : List Char) :
    (str_isascii s && py_isdigit s) = true ↔
      s ≠ [] ∧ ∀ c ∈ s, 48 ≤ c.toNat ∧ c.toNat ≤ 57 := by
  simp only [str_isascii, py_isdigit, Bool.and_eq_true, List.all_eq_true,
    decide_eq_true_eq, Bool.not_eq_true', List.isEmpty_eq_false]
  constructor
  · rintro ⟨hascii, hne, hdig⟩
    exact ⟨hne, fun c hc => (isDigit_iff_toNat c).mp (hdig c hc)⟩
  · rintro ⟨hne, hdig⟩
    refine ⟨fun c hc => ?_, hne, fun c hc => (isDigit_iff_toNat c).mpr (hdig c hc)⟩
    have := (hdig c hc).2
    omega

/-- Appending on the right of a string preserves character-level infixes. -/
theorem isInfix_data_append_right (l : List Char) (a b : String)
    (h : List.IsInfix l a.data) : List.IsInfix l (a ++ b).data := by
  obtain ⟨s, t, e⟩ := h
  exact ⟨s, t ++ b.data, by rw [String.data_append]; simp [← e, List.append_assoc]⟩

/-- Prepending on the left of a string preserves character-level infixes. -/
theorem isInfix_data_append_left (l : List Char) (a b : String)
    (h : List.IsInfix l b.data) : List.IsInfix l (a ++ b).data := by
  obtain ⟨s, t, e⟩ := h
  exact ⟨a.data ++ s, t, by rw [String.data_append]; simp [← e, List.append_assoc]⟩

/-- A character list is an infix of the string it makes. -/
theorem isInfix_data_mk (l : List Char) : List.IsInfix l (String.mk l).data :=
  List.infix_refl l

/- ## Concrete demonstration values -/

/-- Demonstration text: the first structural candidate `aa.bb.cc` fails
validation (its user-id fragment decodes to the letter `i`), the second
candidate decodes to user id 123 with an acceptable timestamp. -/
def demoContent : List Char := ("aa.bb.cc MTIz.enp6eg==.sig").toList

/-- First structural candidate of `demoContent`. -/
def demoToken1 : Token := ⟨("aa").toList, ("bb").toList, ("cc").toList⟩

/-- Second structural candidate of `demoContent`: user id fragment `MTIz`
(base64 of the digits `123`), timestamp fragment `enp6eg==` (base64 of four
`z` bytes, a large big-endian value). -/
def demoToken2 : Token := ⟨("MTIz").toList, ("enp6eg==").toList, ("sig").toList⟩

/-- Demonstration guild message carrying `demoContent`. -/
def demoMsg : DiscordMessage :=
  ⟨7, "alice#1", 42, "<@42>", false, some 1, 99, "<#99>", "avatars/42.png", demoContent⟩

/-- Demonstration direct message (no guild) carrying `demoContent`. -/
def demoDM : DiscordMessage :=
  ⟨8, "bob#2", 43, "<@43>", false, none, 99, "<#99>", "avatars/43.png", demoContent⟩

/-- Demonstration bot-authored guild message carrying `demoContent`. -/
def demoBotMsg : DiscordMessage :=
  ⟨9, "cog#3", 44, "<@44>", true, some 1, 99, "<#99>", "avatars/44.png", demoContent⟩

/-- Demonstration environment in which `Message.delete` raises `NotFound`. -/
def demoEnvNF : Env := ⟨true, fun _ => none, 500, "icons/token_removed", 13462893⟩

/-- Demonstration environment in which deletion succeeds and no member
resolves. -/
def demoEnvOK : Env := ⟨false, fun _ => none, 500, "icons/token_removed", 13462893⟩

/- ## Claim theorems -/

/-- C1: for every message, `find_token_in_message` equals the first element
of the left-to-right, non-overlapping `TOKEN_RE` candidate scan whose user-id
fragment passes `is_valid_user_id` and whose timestamp fragment passes
`is_valid_timestamp` (`List.find?` returns the first satisfying element and
`none` when no candidate passes); in particular, on `demoContent` the first
structural candidate fails validation and the second, passing one is
returned. -/
theorem c1_find_token_in_message_scans_candidates :
    (∀ msg : DiscordMessage,
      TokenRemover.find_token_in_message msg =
        (finditer msg.content).find? TokenRemover.token_is_valid)
    ∧ finditer demoContent = [demoToken1, demoToken2]
    ∧ TokenRemover.token_is_valid demoToken1 = false
    ∧ TokenRemover.token_is_valid demoToken2 = true
    ∧ TokenRemover.find_token_in_message demoMsg = some demoToken2 := by
  refine ⟨fun msg => find_token_go_eq_find _ _, ?_, ?_, ?_, ?_⟩ <;> rfl

/-- C3: `is_valid_timestamp` accepts exactly when the padded fragment
base64-url-decodes and the bytes, read as a big-endian unsigned integer of
arbitrary length, satisfy `value + TOKEN_EPOCH ≥ DISCORD_EPOCH` with
`TOKEN_EPOCH = 1293840000` and `DISCORD_EPOCH = 1420070400` (no upper
bound); a decoding failure gives `false` rather than an exception, and a
fragment decoding to all-zero bytes gives `false`. -/
theorem c3_is_valid_timestamp_epoch_check :
    ∀ s : List Char,
      TOKEN_EPOCH = 1293840000 ∧ DISCORD_EPOCH = 1420070400
      ∧ (urlsafe_b64decode (pad_base64 s) = none →
          TokenRemover.is_valid_timestamp s = false)
      ∧ (∀ bs, urlsafe_b64decode (pad_base64 s) = some bs →
          (TokenRemover.is_valid_timestamp s = true ↔
            DISCORD_EPOCH ≤ int_from_bytes_be bs + TOKEN_EPOCH))
      ∧ (∀ bs, urlsafe_b64decode (pad_base64 s) = some bs → (∀ b ∈ bs, b = 0) →
          TokenRemover.is_valid_timestamp s = false)
      ∧ (∀ (bs : List Nat) (b : Nat),
          int_from_bytes_be (bs ++ [b]) = 256 * int_from_bytes_be bs + b) := by
  intro s
  refine ⟨rfl, rfl, ?_, ?_, ?_, ?_⟩
  · intro h
    simp [TokenRemover.is_valid_timestamp, h]
  · intro bs h
    simp [TokenRemover.is_valid_timestamp, h]
  · intro bs h hz
    simp [TokenRemover.is_valid_timestamp, h, int_from_bytes_be_zero hz,
      TOKEN_EPOCH, DISCORD_EPOCH]
  · intro bs b
    simp [int_from_bytes_be, List.foldl_append, Nat.mul_comm]

/-- C4: `is_valid_user_id` holds exactly when `extract_user_id` yields a
present, non-zero integer; a fragment decoding to the integer 0 is rejected
(Python falsy-zero test). -/
theorem c4_is_valid_user_id_nonzero :
    ∀ s : List Char,
      (TokenRemover.is_valid_user_id s = true ↔
        ∃ n, TokenRemover.extract_user_id s = some n ∧ n ≠ 0)
      ∧ (TokenRemover.extract_user_id s = some 0 →
          TokenRemover.is_valid_user_id s = false) := by
  intro s
  unfold TokenRemover.is_valid_user_id
  cases h : TokenRemover.extract_user_id s with
  | none => simp
  | some n =>
    constructor
    · simp only [bne_iff_ne, ne_eq, Option.some.injEq]
      constructor
      · intro hn
        exact ⟨n, rfl, hn⟩
      · rintro ⟨m, rfl, hm⟩
        exact hm
    · rintro h0
      obtain rfl := Option.some.inj h0
      rfl

/-- C5: `extract_user_id` pads, base64-url-decodes, UTF-8-decodes, and
returns `none` whenever the base64 or UTF-8 decoding fails or the text is
not a non-empty run of ASCII decimal digits; otherwise it returns the text
parsed in base 10.  It is a total function into `Option`, so no error
reaches the caller. -/
theorem c5_extract_user_id_total :
    ∀ s : List Char,
      (urlsafe_b64decode (pad_base64 s) = none → TokenRemover.extract_user_id s = none)
      ∧ (∀ bs, urlsafe_b64decode (pad_base64 s) = some bs → utf8_decode bs = none →
          TokenRemover.extract_user_id s = none)
      ∧ (∀ bs text, urlsafe_b64decode (pad_base64 s) = some bs →
          utf8_decode bs = some text →
          (¬(text ≠ [] ∧ ∀ c ∈ text, 48 ≤ c.toNat ∧ c.toNat ≤ 57) →
            TokenRemover.extract_user_id s = none)
          ∧ ((text ≠ [] ∧ ∀ c ∈ text, 48 ≤ c.toNat ∧ c.toNat ≤ 57) →
            TokenRemover.extract_user_id s = some (int_of_digits text))) := by
  intro s
  refine ⟨?_, ?_, ?_⟩
  · intro h
    simp [TokenRemover.extract_user_id, h]
  · intro bs h hu
    simp [TokenRemover.extract_user_id, h, hu]
  · intro bs text h hu
    constructor
    · intro hnot
      have hb : (str_isascii text && py_isdigit text) = false := by
        rw [← Bool.not_eq_true]
        intro hc
        exact hnot ((isascii_isdigit_iff text).mp hc)
      simp [TokenRemover.extract_user_id, h, hu, hb]
    · intro hyes
      have hb : (str_isascii text && py_isdigit text) = true :=
        (isascii_isdigit_iff text).mpr hyes
      simp [TokenRemover.extract_user_id, h, hu, hb]

/-- Witness for C3: the all-zero fragment `AAAA` is rejected and the
large-timestamp fragment `enp6eg==` is accepted. -/
theorem c3_is_valid_timestamp_epoch_check_witness :
    TokenRemover.is_valid_timestamp (("AAAA").toList) = false
    ∧ TokenRemover.is_valid_timestamp (("enp6eg==").toList) = true :=
  ⟨(c3_is_valid_timestamp_epoch_check (("AAAA").toList)).2.2.2.2.1 [0, 0, 0] rfl
      (by decide),
   ((c3_is_valid_timestamp_epoch_check (("enp6eg==").toList)).2.2.2.1
      [122, 122, 122, 122] rfl).mpr (by decide)⟩

/-- Witness for C4: fragment `MA==` decodes to the integer 0 and is rejected;
fragment `MTIz` decodes to 123 and is accepted. -/
theorem c4_is_valid_user_id_nonzero_witness :
    TokenRemover.is_valid_user_id (("MA==").toList) = false
    ∧ TokenRemover.is_valid_user_id (("MTIz").toList) = true :=
  ⟨(c4_is_valid_user_id_nonzero (("MA==").toList)).2 rfl,
   (c4_is_valid_user_id_nonzero (("MTIz").toList)).1.mpr ⟨123, rfl, by decide⟩⟩

/-- Witness for C5: fragment `MTIz` decodes to the digit text `123` and
parses to 123; fragment `aa` decodes to the letter `i` and yields `none`. -/
theorem c5_extract_user_id_total_witness :
    TokenRemover.extract_user_id (("MTIz").toList) = some 123
    ∧ TokenRemover.extract_user_id (("aa").toList) = none :=
  ⟨(((c5_extract_user_id_total (("MTIz").toList)).2.2 [49, 50, 51]
      (['1', '2', '3']) rfl rfl).2 (by decide) : _),
   ((c5_extract_user_id_total (("aa").toList)).2.2 [105] (['i']) rfl rfl).1
      (by decide)⟩

/-- C2: `apply` of the attachment rule returns a violation exactly when the
attachment counts of the latest message plus the recent messages by the same
author with at least one attachment sum to strictly more than `config.max`;
the violation carries the reason `"sent <total> attachments in <max>s"`, the
singleton author, and exactly that relevant subset; otherwise it returns
`none`. -/
theorem c2_attachments_apply_threshold :
    ∀ (last : Attachments.RMessage) (recent : List Attachments.RMessage)
      (config : Attachments.RuleConfig)
      (relevant : List Attachments.RMessage) (total : Nat),
      relevant = last :: recent.filter
        (fun m => decide (m.author = last.author ∧ 0 < m.attachments.length)) →
      total = (relevant.map (fun m => m.attachments.length)).sum →
      (((total : Int) > config.max →
        Attachments.apply last recent config =
          some ("sent " ++ toString total ++ " attachments in "
                  ++ toString config.max ++ "s",
                [last.author], relevant))
      ∧ ((total : Int) ≤ config.max → Attachments.apply last recent config = none)) := by
  intro last recent config relevant total hrel htot
  have hfil : recent.filter
      (fun m => decide (m.author = last.author ∧ 0 < m.attachments.length)) =
      recent.filter
        (fun m => m.author == last.author && decide (0 < m.attachments.length)) := by
    apply List.filter_congr
    intro m _
    by_cases hm : m.author = last.author <;> simp [hm]
  rw [hfil] at hrel
  constructor
  · intro hgt
    rw [Attachments.apply, if_pos (by rw [← hrel, ← htot] at *; exact hgt)]
    rw [← hrel, ← htot]
  · intro hle
    rw [Attachments.apply, if_neg (by rw [← hrel, ← htot]; omega)]

/-- Witness for C2, the example of the spec: latest message with 3
attachments, window containing a same-author message with 3 attachments and
an other-author message, limit 5: the sum 6 exceeds 5 and the violation
names both same-author messages. -/
theorem c2_attachments_apply_threshold_witness :
    Attachments.apply ⟨0, 1, [1, 2, 3]⟩ [⟨1, 1, [4, 5, 6]⟩, ⟨2, 2, [7]⟩] ⟨5⟩ =
      some ("sent 6 attachments in 5s", [1], [⟨0, 1, [1, 2, 3]⟩, ⟨1, 1, [4, 5, 6]⟩]) := by
  have h := (c2_attachments_apply_threshold ⟨0, 1, [1, 2, 3]⟩
    [⟨1, 1, [4, 5, 6]⟩, ⟨2, 2, [7]⟩] ⟨5⟩
    [⟨0, 1, [1, 2, 3]⟩, ⟨1, 1, [4, 5, 6]⟩] 6 (by decide) (by decide)).1 (by decide)
  exact h

/-- C6: when `Message.delete` raises `NotFound`, `take_action` registers the
deletion suppression, attempts the deletion, logs at debug level and stops:
the trace contains no author notice, no membership lookup, no moderation
alert and no stats increment, and the function returns normally. -/
theorem c6_take_action_not_found_stops :
    ∀ (env : Env) (msg : DiscordMessage) (tok : Token),
      env.deleteNotFound = true →
      TokenRemover.take_action env msg tok =
        [Effect.ignoreDeletion eventMessageDelete msg.id, Effect.deleteMessage msg.id,
         Effect.logDebug ("Failed to remove token in message " ++ toString msg.id
           ++ ": message already deleted.")]
      ∧ ∀ e ∈ TokenRemover.take_action env msg tok,
          e.isSendChannelMessage = false ∧ e.isMemberLookup = false
          ∧ e.isModAlert = false ∧ e.isStatsIncr = false := by
  intro env msg tok h
  have heq : TokenRemover.take_action env msg tok =
      [Effect.ignoreDeletion eventMessageDelete msg.id, Effect.deleteMessage msg.id,
       Effect.logDebug ("Failed to remove token in message " ++ toString msg.id
         ++ ": message already deleted.")] := by
    simp [TokenRemover.take_action, h]
  refine ⟨heq, ?_⟩
  intro e he
  rw [heq] at he
  simp only [List.mem_cons, List.not_mem_nil, or_false] at he
  rcases he with rfl | rfl | rfl <;> exact ⟨rfl, rfl, rfl, rfl⟩

/-- Witness for C6: the concrete `NotFound` environment produces exactly the
three-effect trace. -/
theorem c6_take_action_not_found_stops_witness :
    TokenRemover.take_action demoEnvNF demoMsg demoToken2 =
      [Effect.ignoreDeletion eventMessageDelete demoMsg.id,
       Effect.deleteMessage demoMsg.id,
       Effect.logDebug ("Failed to remove token in message " ++ toString demoMsg.id
         ++ ": message already deleted.")] :=
  (c6_take_action_not_found_stops demoEnvNF demoMsg demoToken2 rfl).1

/-- C7: the moderation log message censors the hmac: it is invariant under
replacing the hmac fragment by any fragment of the same length (in
particular by the placeholder `'x' * len(hmac)` itself), so two tokens
differing only in their equal-length hmac fragments log identically, while
the user-id and timestamp fragments occur verbatim in the message. -/
theorem c7_format_log_message_censors_hmac :
    ∀ (msg : DiscordMessage) (t1 t2 : Token) (uid : Option Nat) (uname : Option String),
      (t1.user_id = t2.user_id → t1.timestamp = t2.timestamp →
        t1.hmac.length = t2.hmac.length →
        TokenRemover.format_log_message msg t1 uid uname =
          TokenRemover.format_log_message msg t2 uid uname)
      ∧ TokenRemover.format_log_message msg t1 uid uname =
          TokenRemover.format_log_message msg
            ⟨t1.user_id, t1.timestamp, List.replicate t1.hmac.length 'x'⟩ uid uname
      ∧ List.IsInfix t1.user_id (TokenRemover.format_log_message msg t1 uid uname).data
      ∧ List.IsInfix t1.timestamp
          (TokenRemover.format_log_message msg t1 uid uname).data := by
  intro msg t1 t2 uid uname
  refine ⟨?_, ?_, ?_, ?_⟩
  · intro h1 h2 h3
    simp [TokenRemover.format_log_message, h1, h2, h3]
  · simp [TokenRemover.format_log_message]
  · simp only [TokenRemover.format_log_message]
    apply isInfix_data_append_right
    apply isInfix_data_append_right
    apply isInfix_data_append_right
    apply isInfix_data_append_right
    apply isInfix_data_append_right
    apply isInfix_data_append_right
    apply isInfix_data_append_right
    apply isInfix_data_append_left
    exact isInfix_data_mk _
  · simp only [TokenRemover.format_log_message]
    apply isInfix_data_append_right
    apply isInfix_data_append_right
    apply isInfix_data_append_right
    apply isInfix_data_append_right
    apply isInfix_data_append_right
    apply isInfix_data_append_left
    exact isInfix_data_mk _

/-- Witness for C7: two tokens equal except for their three-character hmac
fragments (`sig` versus `abc`) produce the same log message. -/
theorem c7_format_log_message_censors_hmac_witness :
    TokenRemover.format_log_message demoMsg demoToken2 (some 123) none =
      TokenRemover.format_log_message demoMsg
        ⟨("MTIz").toList, ("enp6eg==").toList, ("abc").toList⟩ (some 123) none :=
  (c7_format_log_message_censors_hmac demoMsg demoToken2
    ⟨("MTIz").toList, ("enp6eg==").toList, ("abc").toList⟩ (some 123) none).1 rfl rfl rfl

/-- C8: processing an edit runs the identical detection and action path as a
fresh message with the final content: `on_message_edit` equals `on_message`
on the after-message, and is independent of the before-message. -/
theorem c8_on_message_edit_equals_on_message :
    ∀ (env : Env) (before after : DiscordMessage),
      TokenRemover.on_message_edit env before after = TokenRemover.on_message env after
      ∧ ∀ before2, TokenRemover.on_message_edit env before after =
          TokenRemover.on_message_edit env before2 after :=
  fun _ _ _ => ⟨rfl, fun _ => rfl⟩

/-- C9: every token returned by `find_token_in_message` has three non-empty
fragments drawn from the `TOKEN_RE` character class, passes both validation
checks, and its user-id fragment decodes to a present non-zero integer. -/
theorem c9_found_token_invariant :
    ∀ (msg : DiscordMessage) (t : Token),
      TokenRemover.find_token_in_message msg = some t →
      (t.user_id ≠ [] ∧ ∀ c ∈ t.user_id, isTokenChar c = true)
      ∧ (t.timestamp ≠ [] ∧ ∀ c ∈ t.timestamp, isTokenChar c = true)
      ∧ (t.hmac ≠ [] ∧ ∀ c ∈ t.hmac, isTokenChar c = true)
      ∧ TokenRemover.is_valid_user_id t.user_id = true
      ∧ TokenRemover.is_valid_timestamp t.timestamp = true
      ∧ ∃ n, TokenRemover.extract_user_id t.user_id = some n ∧ n ≠ 0 := by
  intro msg t h
  obtain ⟨⟨h1, h2, h3⟩, hv⟩ := find_token_go_some h
  simp only [TokenRemover.token_is_valid, Bool.and_eq_true] at hv
  exact ⟨h1, h2, h3, hv.1, hv.2, is_valid_user_id_exists hv.1⟩

/-- Witness for C9: the token found in `demoMsg` satisfies the invariant. -/
theorem c9_found_token_invariant_witness :
    (demoToken2.user_id ≠ [] ∧ ∀ c ∈ demoToken2.user_id, isTokenChar c = true)
    ∧ (demoToken2.timestamp ≠ [] ∧ ∀ c ∈ demoToken2.timestamp, isTokenChar c = true)
    ∧ (demoToken2.hmac ≠ [] ∧ ∀ c ∈ demoToken2.hmac, isTokenChar c = true)
    ∧ TokenRemover.is_valid_user_id demoToken2.user_id = true
    ∧ TokenRemover.is_valid_timestamp demoToken2.timestamp = true
    ∧ ∃ n, TokenRemover.extract_user_id demoToken2.user_id = some n ∧ n ≠ 0 :=
  c9_found_token_invariant demoMsg demoToken2 rfl

/-- C10: a direct message (no guild) or a bot-authored message is ignored by
`on_message`: the effect trace is empty, so no deletion, notice, alert or
stats increment happens and no token scan can act. -/
theorem c10_on_message_ignores_dm_and_bot :
    ∀ (env : Env) (msg : DiscordMessage),
      msg.guild = none ∨ msg.authorBot = true →
      TokenRemover.on_message env msg = [] := by
  intro env msg h
  unfold TokenRemover.on_message
  rcases h with h | h <;> simp [h]

/-- Witness for C10: the direct message and the bot message carrying a valid
token are both ignored. -/
theorem c10_on_message_ignores_dm_and_bot_witness :
    TokenRemover.on_message demoEnvOK demoDM = []
    ∧ TokenRemover.on_message demoEnvOK demoBotMsg = [] :=
  ⟨c10_on_message_ignores_dm_and_bot demoEnvOK demoDM (Or.inl rfl),
   c10_on_message_ignores_dm_and_bot demoEnvOK demoBotMsg (Or.inr rfl)⟩
